import Mathlib

/-!
Verification development for the sakura media-manager orchestration core.

The definitions below are shallow embeddings of the TypeScript sources:

* `ServerListService` and its methods embed `src/services/serverList.ts`.
* `uploadToPrimaryServer` embeds the upload helper of
  `src/components/ProfileEditForm.tsx`.
* `deleteMedia` embeds the delete handler of `src/components/MediaGrid.tsx`.

External collaborators (relay queries, event signing, relay publishing, the
remote blob delete) are passed in as oracle arguments describing the outcome
of each remote interaction, and every function additionally returns a trace
of the collaborator calls it makes, in order, so that temporal claims can be
stated.  Helpers that live outside the provided sources
(`validateServerUrl`, `parseServerListEvent`, the media cache hook) are
modelled from the specification and marked as such in their doc comments.
-/

namespace Sakura

/-- The two signing methods of the application (TS union type
`'extension' | 'nsec'`). -/
inductive SigningMethod
  | extension
  | nsec
  deriving DecidableEq, Repr

/-- A parsed BUD-03 user server list (TS `UserServerList`): the owner pubkey,
the ordered sequence of server URLs, and the timestamp of the event it was
parsed from. -/
structure UserServerList where
  pubkey : String
  servers : List String
  updatedAt : Nat
  deriving DecidableEq, Repr

/-- A kind 10063 server-list event, reduced to the fields the service reads:
author pubkey, creation timestamp, and the ordered server URL payload.
The spec (section 6) describes the persisted representation as a single
replaceable signed record whose payload is the ordered server URL sequence. -/
structure ServerListEvent where
  pubkey : String
  created_at : Nat
  servers : List String
  deriving DecidableEq, Repr

/-- Modelled from the spec: `validateServerUrl` lives in
`src/utils/serverList.ts`, which is not among the provided sources.  Section
4.1 of the spec says `validate(url)` rejects malformed URLs and non-secure
schemes, so a URL is accepted exactly when it is an `https://` URL with a
nonempty remainder. -/
def validateServerUrl (url : String) : Bool :=
  decide (url.data.take 8 = "https://".data) && decide (8 < url.data.length)

/-- Modelled from the spec: `parseServerListEvent` lives in
`src/utils/serverList.ts`, which is not among the provided sources.  Per the
spec (section 6) the payload of the event is the ordered server URL
sequence, so parsing reads the owner, the server sequence, and the event
timestamp. -/
def parseServerListEvent (e : ServerListEvent) : UserServerList :=
  ⟨e.pubkey, e.servers, e.created_at⟩

/-- One collaborator call made while persisting a server list: building the
kind 10063 event with the given payload, signing it, or publishing the
signed event to the given relays. -/
inductive SLAction
  | createEvent (servers : List String)
  | sign
  | publish (relays : List String)
  deriving DecidableEq, Repr

/-- The mutable relay configuration of `ServerListService`. -/
structure ServerListService where
  _defaultRelayUrls : List String
  _publishRelayUrls : List String
  deriving DecidableEq, Repr

namespace ServerListService

/-- The `publishRelayUrls` getter: the custom publish relays when set,
otherwise the default discovery relays. -/
def publishRelayUrls (svc : ServerListService) : List String :=
  if svc._publishRelayUrls.isEmpty then svc._defaultRelayUrls
  else svc._publishRelayUrls

/-- `createAndPublishServerList`: filter the requested servers down to the
valid ones, fail when none remains, otherwise build the kind 10063 event,
sign it, publish it, and return the parse of the signed event.  `signOk` and
`pubOk` are the outcomes of the signing and publishing collaborators; the
first component of the result is the trace of collaborator calls. -/
def createAndPublishServerList (svc : ServerListService)
    (servers : List String) (pubkey : String) (now : Nat)
    (signOk pubOk : Bool) :
    List SLAction × Except String UserServerList :=
  let validServers := servers.filter validateServerUrl
  if validServers.isEmpty then
    ([], .error "No valid server URLs provided")
  else
    let ev : ServerListEvent := ⟨pubkey, now, validServers⟩
    if !signOk then
      ([.createEvent validServers, .sign], .error "Failed to sign event")
    else if !pubOk then
      ([.createEvent validServers, .sign, .publish svc.publishRelayUrls],
       .error "Failed to publish server list event")
    else
      ([.createEvent validServers, .sign, .publish svc.publishRelayUrls],
       .ok (parseServerListEvent ev))

/-- `updateServerList` delegates to `createAndPublishServerList`. -/
def updateServerList (svc : ServerListService)
    (servers : List String) (pubkey : String) (now : Nat)
    (signOk pubOk : Bool) :
    List SLAction × Except String UserServerList :=
  svc.createAndPublishServerList servers pubkey now signOk pubOk

/-- `addServer`: reject an invalid URL, reject a URL already present,
otherwise append the URL and persist the updated list. -/
def addServer (svc : ServerListService)
    (serverUrl : String) (currentList : UserServerList) (now : Nat)
    (signOk pubOk : Bool) :
    List SLAction × Except String UserServerList :=
  if !(validateServerUrl serverUrl) then
    ([], .error "Invalid server URL")
  else if serverUrl ∈ currentList.servers then
    ([], .error "Server already in list")
  else
    svc.updateServerList (currentList.servers ++ [serverUrl])
      currentList.pubkey now signOk pubOk

/-- `removeServer`: filter the URL out of the current list and persist the
result. -/
def removeServer (svc : ServerListService)
    (serverUrl : String) (currentList : UserServerList) (now : Nat)
    (signOk pubOk : Bool) :
    List SLAction × Except String UserServerList :=
  svc.updateServerList
    (currentList.servers.filter (fun url => decide (url ≠ serverUrl)))
    currentList.pubkey now signOk pubOk

end ServerListService

/-- The filtering step of `reorderServers`: keep the candidates that are both
members of the current list and valid URLs, in candidate order. -/
def reorderFilter (newOrder current : List String) : List String :=
  newOrder.filter (fun url => decide (url ∈ current) && validateServerUrl url)

namespace ServerListService

/-- `reorderServers`: keep the candidates present in the current list and
valid, in the requested order, and persist the result. -/
def reorderServers (svc : ServerListService)
    (newOrder : List String) (currentList : UserServerList) (now : Nat)
    (signOk pubOk : Bool) :
    List SLAction × Except String UserServerList :=
  svc.updateServerList (reorderFilter newOrder currentList.servers)
    currentList.pubkey now signOk pubOk

end ServerListService

/-- Modelled from the spec: the relay metadata returned by
`getUserRelayList` (in `src/utils/nostr.ts`, not among the provided
sources).  Section 4.1 speaks of the owner declared relay metadata carrying
a writable flag; the service reads only the `write` field, which may be
absent. -/
structure RelayMeta where
  write : Option Bool
  deriving DecidableEq, Repr

/-- Modelled from the spec: the owner declared relay list returned by
`getUserRelayList` — an ordered association of relay URL to its metadata. -/
structure UserRelayList where
  relays : List (String × RelayMeta)
  deriving DecidableEq, Repr

namespace ServerListService

/-- The write-relay derivation inside `setPublishRelaysFromUserList`: keep
the entries whose `write` flag is not the explicit value `false`, and
project the URLs. -/
def writeRelays (rl : UserRelayList) : List String :=
  (rl.relays.filter (fun e => e.2.write != some false)).map Prod.fst

/-- `setPublishRelaysFromUserList`: fetch the owner relay list (its outcome
is the oracle argument), derive the write relays, and when at least one
exists install them as the publish relays and return true; otherwise leave
the service unchanged and return false. -/
def setPublishRelaysFromUserList (svc : ServerListService)
    (userRelayList : Option UserRelayList) : ServerListService × Bool :=
  match userRelayList with
  | some rl =>
      let ws := writeRelays rl
      if ws.isEmpty then (svc, false)
      else ({ svc with _publishRelayUrls := ws }, true)
  | none => (svc, false)

end ServerListService

/-- One collaborator call made during server-list discovery: querying the
default relays, fetching the owner declared relay list, or querying the
relays of that list. -/
inductive DiscoveryStep
  | queryDefault (relays : List String)
  | fetchUserRelayList
  | queryUserRelays (relays : List String)
  deriving DecidableEq, Repr

/-- The event the two-phase lookup settles on: the events of the default
query when it returned any, otherwise the events of the user-relay query
when the owner has a relay list, otherwise nothing. -/
def discoveredEvents (defaultEvents : List ServerListEvent)
    (userRelayList : Option UserRelayList)
    (userEvents : List ServerListEvent) : List ServerListEvent :=
  if defaultEvents.isEmpty then
    match userRelayList with
    | some _ => userEvents
    | none => []
  else defaultEvents

/-- The comparison step of the descending sort-by-`created_at`: keep the
newer of two events, preferring the earlier one on ties. -/
def newerEvent (best ev : ServerListEvent) : ServerListEvent :=
  if best.created_at < ev.created_at then ev else best

/-- The `[0]` of the events sorted by descending `created_at` with a stable
sort: the first event attaining the maximal timestamp. -/
def latestEvent : List ServerListEvent → Option ServerListEvent
  | [] => none
  | e :: es => some (es.foldl newerEvent e)

namespace ServerListService

/-- The collaborator calls the two-phase lookup makes: the default query
always happens first; the owner relay list is fetched only when the default
query returned nothing, and the user relays are queried only when that
fetch found a relay list. -/
def discoverySteps (svc : ServerListService)
    (defaultEvents : List ServerListEvent)
    (userRelayList : Option UserRelayList) : List DiscoveryStep :=
  if defaultEvents.isEmpty then
    match userRelayList with
    | some rl =>
        [DiscoveryStep.queryDefault svc._defaultRelayUrls,
         DiscoveryStep.fetchUserRelayList,
         DiscoveryStep.queryUserRelays (rl.relays.map Prod.fst)]
    | none =>
        [DiscoveryStep.queryDefault svc._defaultRelayUrls,
         DiscoveryStep.fetchUserRelayList]
  else [DiscoveryStep.queryDefault svc._defaultRelayUrls]

/-- `getUserServerList`: query the default discovery relays first; only when
that returns no event, fetch the owner relay list and, when one exists,
query its relays; return the parse of the newest event found, or none.  The
three oracle arguments are the outcomes of the three possible collaborator
calls; the first component of the result is the trace of calls made. -/
def getUserServerList (svc : ServerListService)
    (defaultEvents : List ServerListEvent)
    (userRelayList : Option UserRelayList)
    (userEvents : List ServerListEvent) :
    List DiscoveryStep × Option UserServerList :=
  (discoverySteps svc defaultEvents userRelayList,
   match latestEvent (discoveredEvents defaultEvents userRelayList userEvents) with
   | some ev => some (parseServerListEvent ev)
   | none => none)

end ServerListService

/-- Outcome of the EXIF-removal step of the profile-image upload: success,
an `ExifRemovalError` together with the answer of the privacy confirmation
dialog, or any other processing failure. -/
inductive ExifOutcome
  | ok
  | removalError (proceed : Bool)
  | processError
  deriving DecidableEq, Repr

/-- `uploadToPrimaryServer` of `ProfileEditForm`: check the signing method,
validate the file, strip EXIF data for images, require a nonempty server
list, and upload to the primary server only.  `uploadOutcome` is the oracle
outcome of the network upload; the first component of the result is the
list of servers a network call was made to, in order. -/
def uploadToPrimaryServer (signingMethod : Option SigningMethod)
    (fileValid : Bool) (isImageFile : Bool) (exifResult : ExifOutcome)
    (userServerList : Option UserServerList)
    (uploadOutcome : Except String String) :
    List String × Except String String :=
  match signingMethod with
  | none => ([], .error "No signing method available. Please login again.")
  | some _ =>
    if !fileValid then ([], .error "File validation failed")
    else
      let exifAbort : Option String :=
        if isImageFile then
          match exifResult with
          | .ok => none
          | .removalError proceed =>
              if proceed then none
              else some "Upload cancelled due to privacy concerns. Please choose a different image."
          | .processError => some "Failed to process image"
        else none
      match exifAbort with
      | some e => ([], .error e)
      | none =>
        match userServerList with
        | none =>
            ([], .error "No Blossom servers configured. Please configure your servers in Settings first.")
        | some l =>
          match l.servers with
          | [] =>
              ([], .error "No Blossom servers configured. Please configure your servers in Settings first.")
          | primary :: _ => ([primary], uploadOutcome)

/-- One step of the `deleteMedia` handler of `MediaGrid` that touches the
media cache or the network: the optimistic cache removal, the remote
delete-with-fallback dispatch, or the forced cache refresh of the recovery
path. -/
inductive DeleteAction
  | removeFromCache (hash : String)
  | remoteDelete (hash : String)
  | forceRefresh
  deriving DecidableEq, Repr

/-- Modelled from the spec: `removeMedia` of the `useMediaCache` hook, which
is not among the provided sources.  Section 4.4 describes it as optimistic
local removal of the hash from the cached set, with no re-insertion ever
performed by the cache itself. -/
def removeMedia (cached : List String) (hash : String) : List String :=
  cached.filter (fun h => decide (h ≠ hash))

/-- `deleteMedia` of `MediaGrid`: after the confirmation dialog and the
signing-method check, and provided the hash is present in the cached media,
optimistically remove it from the cache, then dispatch the remote
delete-with-fallback when a nonempty server list exists (throwing
otherwise), and on any failure force a cache refresh.  `remoteOk` is the
oracle outcome of the remote delete; the result is the trace of cache and
network steps. -/
def deleteMedia (confirmOk : Bool) (signingMethod : Option SigningMethod)
    (media : List String) (hash : String)
    (userServerList : Option UserServerList) (remoteOk : Bool) :
    List DeleteAction :=
  if !confirmOk then []
  else
    match signingMethod with
    | none => []
    | some _ =>
      if !(decide (hash ∈ media)) then []
      else
        match userServerList with
        | some l =>
          match l.servers with
          | [] => [.removeFromCache hash, .forceRefresh]
          | _ :: _ =>
              if remoteOk then [.removeFromCache hash, .remoteDelete hash]
              else [.removeFromCache hash, .remoteDelete hash, .forceRefresh]
        | none => [.removeFromCache hash, .forceRefresh]

/-- Whether an `Except` value is a success. -/
def exceptIsOk {ε α : Type} : Except ε α → Bool
  | .ok _ => true
  | .error _ => false

/-- A list all of whose members are valid server URLs is unchanged by the
validity filter. -/
theorem filter_validate_of_forall {l : List String}
    (h : ∀ s ∈ l, validateServerUrl s = true) :
    l.filter validateServerUrl = l :=
  List.filter_eq_self.mpr h

/-- Every member of a reorder-filtered list is a valid server URL. -/
theorem reorderFilter_valid {C S : List String} :
    ∀ s ∈ reorderFilter C S, validateServerUrl s = true := by
  intro s hs
  have h := (List.mem_filter.mp hs).2
  simp only [Bool.and_eq_true, decide_eq_true_eq] at h
  exact h.2

/-- Evaluation of `createAndPublishServerList` when a valid server remains
and both collaborators succeed: the event is created with the filtered
servers, signed, published, and its parse is returned. -/
theorem createAndPublish_eq_ok (svc : ServerListService)
    (servers : List String) (pubkey : String) (now : Nat)
    (hne : servers.filter validateServerUrl ≠ []) :
    svc.createAndPublishServerList servers pubkey now true true =
      ([.createEvent (servers.filter validateServerUrl), .sign,
        .publish svc.publishRelayUrls],
       .ok ⟨pubkey, servers.filter validateServerUrl, now⟩) := by
  have h1 : (servers.filter validateServerUrl).isEmpty = false :=
    List.isEmpty_eq_false.mpr hne
  simp only [ServerListService.createAndPublishServerList, h1, Bool.false_eq_true,
    if_false, Bool.not_true, parseServerListEvent]

/-- Evaluation of `createAndPublishServerList` when no valid server
remains: the call fails before any collaborator call. -/
theorem createAndPublish_eq_error (svc : ServerListService)
    (servers : List String) (pubkey : String) (now : Nat)
    (signOk pubOk : Bool)
    (he : servers.filter validateServerUrl = []) :
    svc.createAndPublishServerList servers pubkey now signOk pubOk =
      ([], .error "No valid server URLs provided") := by
  have h1 : (servers.filter validateServerUrl).isEmpty = true :=
    List.isEmpty_eq_true.mpr he
  simp only [ServerListService.createAndPublishServerList, h1, if_true]

/-- Claim C1 is false as stated: on a list whose only server is
`https://a`, removing `https://a` does not return a ServerList with an
empty servers sequence — `createAndPublishServerList` rejects the empty
remainder and the call fails with "No valid server URLs provided". -/
theorem c1_remove_last_counterexample :
    (ServerListService.removeServer ⟨["wss://d"], []⟩ "https://a"
        ⟨"pk", ["https://a"], 0⟩ 1 true true).2 =
      .error "No valid server URLs provided" := by
  rfl

/-- Claim C1, amended: over a current list of valid server URLs with `u`
present and succeeding collaborators, `removeServer u` succeeds and its
servers are exactly the current servers with `u` filtered out, in order,
provided that remainder is nonempty; when `u` was the only remaining
server, the call instead fails with "No valid server URLs provided". -/
theorem c1_removeServer_amended (svc : ServerListService) (u : String)
    (L : UserServerList) (now : Nat)
    (hvalid : ∀ s ∈ L.servers, validateServerUrl s = true)
    (hmem : u ∈ L.servers) :
    (L.servers.filter (fun s => decide (s ≠ u)) ≠ [] →
       (svc.removeServer u L now true true).2 =
         .ok ⟨L.pubkey, L.servers.filter (fun s => decide (s ≠ u)), now⟩) ∧
    (L.servers.filter (fun s => decide (s ≠ u)) = [] →
       (svc.removeServer u L now true true).2 =
         .error "No valid server URLs provided") := by
  have hrun : svc.removeServer u L now true true =
      svc.createAndPublishServerList
        (L.servers.filter (fun s => decide (s ≠ u))) L.pubkey now true true := rfl
  have hrv : (L.servers.filter (fun s => decide (s ≠ u))).filter validateServerUrl
      = L.servers.filter (fun s => decide (s ≠ u)) :=
    filter_validate_of_forall (fun s hs => hvalid s (List.mem_of_mem_filter hs))
  constructor
  · intro hne
    rw [hrun, createAndPublish_eq_ok svc _ L.pubkey now (by rw [hrv]; exact hne), hrv]
  · intro he
    rw [hrun, createAndPublish_eq_error svc _ L.pubkey now true true (by rw [hrv]; exact he)]

/-- Witness for the amended claim C1 at a concrete input: removing
`https://a` from the two-server list leaves exactly `https://b`. -/
theorem c1_removeServer_witness :
    (ServerListService.removeServer ⟨["wss://d"], []⟩ "https://a"
        ⟨"pk", ["https://a", "https://b"], 0⟩ 5 true true).2 =
      .ok ⟨"pk", ["https://b"], 5⟩ := by
  have h := (c1_removeServer_amended ⟨["wss://d"], []⟩ "https://a"
      ⟨"pk", ["https://a", "https://b"], 0⟩ 5 (by decide) (by decide)).1 (by decide)
  simpa using h

/-- Claim C3: over a current list of valid server URLs and succeeding
collaborators, `addServer u` fails exactly when `u` is invalid or already
present, and when it succeeds the resulting servers are the current
sequence with `u` appended at the end. -/
theorem c3_addServer_spec (svc : ServerListService) (u : String)
    (L : UserServerList) (now : Nat)
    (hvalid : ∀ s ∈ L.servers, validateServerUrl s = true) :
    (exceptIsOk (svc.addServer u L now true true).2 = false ↔
       (validateServerUrl u = false ∨ u ∈ L.servers)) ∧
    (validateServerUrl u = true → u ∉ L.servers →
       (svc.addServer u L now true true).2 =
         .ok ⟨L.pubkey, L.servers ++ [u], now⟩) := by
  by_cases hv : validateServerUrl u = true
  · by_cases hm : u ∈ L.servers
    · have hrun : svc.addServer u L now true true =
          ([], .error "Server already in list") := by
        unfold ServerListService.addServer
        rw [if_neg (by simp [hv]), if_pos hm]
      refine ⟨?_, fun _ hnm => absurd hm hnm⟩
      simp [hrun, exceptIsOk, hm]
    · have happ : (L.servers ++ [u]).filter validateServerUrl
          = L.servers ++ [u] := by
        refine filter_validate_of_forall ?_
        intro s hs
        rcases List.mem_append.mp hs with h | h
        · exact hvalid s h
        · have : s = u := by simpa using h
          rw [this]; exact hv
      have hne : (L.servers ++ [u]).filter validateServerUrl ≠ [] := by
        rw [happ]; simp
      have hrun : svc.addServer u L now true true =
          svc.createAndPublishServerList (L.servers ++ [u])
            L.pubkey now true true := by
        unfold ServerListService.addServer ServerListService.updateServerList
        rw [if_neg (by simp [hv]), if_neg hm]
      refine ⟨?_, fun _ _ => ?_⟩
      · rw [hrun, createAndPublish_eq_ok svc _ _ now hne]
        simp [exceptIsOk, hv, hm]
      · rw [hrun, createAndPublish_eq_ok svc _ _ now hne, happ]
  · have hrun : svc.addServer u L now true true =
        ([], .error "Invalid server URL") := by
      unfold ServerListService.addServer
      rw [if_pos (by simp [Bool.eq_false_iff.mpr hv])]
    refine ⟨?_, fun hv' _ => absurd hv' hv⟩
    simp [hrun, exceptIsOk, Bool.eq_false_iff.mpr hv]

/-- Witness for claim C3 at a concrete input: adding `https://b` to a list
holding only `https://a` succeeds and appends it. -/
theorem c3_addServer_witness :
    (ServerListService.addServer ⟨["wss://d"], []⟩ "https://b"
        ⟨"pk", ["https://a"], 0⟩ 5 true true).2 =
      .ok ⟨"pk", ["https://a", "https://b"], 5⟩ := by
  have h := (c3_addServer_spec ⟨["wss://d"], []⟩ "https://b"
      ⟨"pk", ["https://a"], 0⟩ 5 (by decide)).2 (by decide) (by decide)
  simpa using h

/-- Claim C4 is false as stated: a candidate order consisting of the single
stale URL `https://x`, against a current list holding only `https://a`,
leaves nothing after the filtering step and `reorderServers` errors rather
than returning the filtered (empty) sequence. -/
theorem c4_reorder_stale_counterexample :
    (ServerListService.reorderServers ⟨["wss://d"], []⟩ ["https://x"]
        ⟨"pk", ["https://a"], 0⟩ 1 true true).2 =
      .error "No valid server URLs provided" := by
  rfl

/-- Claim C4, amended: with succeeding collaborators, `reorderServers C`
returns exactly the elements of `C` that are members of the current list
and valid URLs, kept in the order of `C`, with every other element of `C`
silently dropped — provided at least one candidate survives the filter;
when no candidate survives, the call errors with
"No valid server URLs provided" instead of producing an empty list. -/
theorem c4_reorderServers_amended (svc : ServerListService)
    (C : List String) (L : UserServerList) (now : Nat) :
    (reorderFilter C L.servers ≠ [] →
       (svc.reorderServers C L now true true).2 =
         .ok ⟨L.pubkey, reorderFilter C L.servers, now⟩) ∧
    (reorderFilter C L.servers = [] →
       (svc.reorderServers C L now true true).2 =
         .error "No valid server URLs provided") := by
  have hrun : svc.reorderServers C L now true true =
      svc.createAndPublishServerList (reorderFilter C L.servers)
        L.pubkey now true true := rfl
  have hrv : (reorderFilter C L.servers).filter validateServerUrl
      = reorderFilter C L.servers :=
    filter_validate_of_forall reorderFilter_valid
  constructor
  · intro hne
    rw [hrun, createAndPublish_eq_ok svc _ L.pubkey now (by rw [hrv]; exact hne), hrv]
  · intro he
    rw [hrun,
      createAndPublish_eq_error svc _ L.pubkey now true true (by rw [hrv]; exact he)]

/-- Witness for the amended claim C4 at a concrete input: the candidate
order keeps the two known servers in the requested order and drops the
stale `https://x`. -/
theorem c4_reorderServers_witness :
    (ServerListService.reorderServers ⟨["wss://d"], []⟩
        ["https://b", "https://x", "https://a"]
        ⟨"pk", ["https://a", "https://b"], 0⟩ 7 true true).2 =
      .ok ⟨"pk", ["https://b", "https://a"], 7⟩ := by
  have h := (c4_reorderServers_amended ⟨["wss://d"], []⟩
      ["https://b", "https://x", "https://a"]
      ⟨"pk", ["https://a", "https://b"], 0⟩ 7).1 (by decide)
  simpa using h

/-- Claim C9: the filtering step of reorder is idempotent — filtering a
candidate order against the outcome of the same filtering yields the same
sequence as filtering once. -/
theorem c9_reorderFilter_idempotent (C S : List String) :
    reorderFilter C (reorderFilter C S) = reorderFilter C S := by
  unfold reorderFilter
  refine List.filter_congr ?_
  intro u hu
  cases hv : validateServerUrl u with
  | false => simp [hv]
  | true =>
    simp only [hv, Bool.and_true]
    refine decide_eq_decide.mpr ?_
    constructor
    · intro hmem
      have h := (List.mem_filter.mp hmem).2
      simp only [Bool.and_eq_true, decide_eq_true_eq] at h
      exact h.1
    · intro hS
      exact List.mem_filter.mpr ⟨hu, by simp [hS, hv]⟩

/-- Claim C10: publishing a server list silently filters out every invalid
URL, so the published servers are exactly the valid subset of the request,
and the operation fails at the validation step exactly when no valid URL
remains after filtering. -/
theorem c10_publish_filters_invalid (svc : ServerListService)
    (servers : List String) (pubkey : String) (now : Nat) :
    (servers.filter validateServerUrl ≠ [] →
       (svc.createAndPublishServerList servers pubkey now true true).2 =
         .ok ⟨pubkey, servers.filter validateServerUrl, now⟩) ∧
    (exceptIsOk (svc.createAndPublishServerList servers pubkey now true true).2
        = false ↔ servers.filter validateServerUrl = []) := by
  by_cases he : servers.filter validateServerUrl = []
  · refine ⟨fun hne => absurd he hne, ?_⟩
    rw [createAndPublish_eq_error svc servers pubkey now true true he]
    simp [exceptIsOk, he]
  · refine ⟨fun _ => ?_, ?_⟩
    · rw [createAndPublish_eq_ok svc servers pubkey now he]
    · rw [createAndPublish_eq_ok svc servers pubkey now he]
      simp [exceptIsOk, he]

/-- Witness for claim C10 at a concrete input: the invalid `http://b` is
silently dropped and the published list is a strict subset of the
request. -/
theorem c10_publish_witness :
    (ServerListService.createAndPublishServerList ⟨["wss://d"], []⟩
        ["https://a", "http://b"] "pk" 3 true true).2 =
      .ok ⟨"pk", ["https://a"], 3⟩ := by
  have h := (c10_publish_filters_invalid ⟨["wss://d"], []⟩
      ["https://a", "http://b"] "pk" 3).1 (by decide)
  simpa using h

/-- Evaluation of `createAndPublishServerList` when the signer fails: the
event is created and handed to the signer, nothing is published. -/
theorem createAndPublish_eq_signFail (svc : ServerListService)
    (servers : List String) (pubkey : String) (now : Nat) (pubOk : Bool)
    (hne : servers.filter validateServerUrl ≠ []) :
    svc.createAndPublishServerList servers pubkey now false pubOk =
      ([.createEvent (servers.filter validateServerUrl), .sign],
       .error "Failed to sign event") := by
  have h1 : (servers.filter validateServerUrl).isEmpty = false :=
    List.isEmpty_eq_false.mpr hne
  simp only [ServerListService.createAndPublishServerList, h1, Bool.false_eq_true,
    if_false, Bool.not_false, if_true]

/-- Evaluation of `createAndPublishServerList` when signing succeeds but
publishing fails. -/
theorem createAndPublish_eq_pubFail (svc : ServerListService)
    (servers : List String) (pubkey : String) (now : Nat)
    (hne : servers.filter validateServerUrl ≠ []) :
    svc.createAndPublishServerList servers pubkey now true false =
      ([.createEvent (servers.filter validateServerUrl), .sign,
        .publish svc.publishRelayUrls],
       .error "Failed to publish server list event") := by
  have h1 : (servers.filter validateServerUrl).isEmpty = false :=
    List.isEmpty_eq_false.mpr hne
  simp only [ServerListService.createAndPublishServerList, h1, Bool.false_eq_true,
    if_false, Bool.not_true, Bool.not_false, if_true]

/-- Any successful run of `createAndPublishServerList` produced the trace
create-event, sign, publish, in that order. -/
theorem createAndPublish_trace_of_ok (svc : ServerListService)
    (servers : List String) (pubkey : String) (now : Nat)
    (signOk pubOk : Bool) (r : UserServerList)
    (h : (svc.createAndPublishServerList servers pubkey now signOk pubOk).2
        = .ok r) :
    (svc.createAndPublishServerList servers pubkey now signOk pubOk).1 =
      [.createEvent (servers.filter validateServerUrl), .sign,
       .publish svc.publishRelayUrls] := by
  by_cases he : servers.filter validateServerUrl = []
  · rw [createAndPublish_eq_error svc servers pubkey now signOk pubOk he] at h
    simp at h
  · cases signOk
    · rw [createAndPublish_eq_signFail svc servers pubkey now pubOk he] at h
      simp at h
    · cases pubOk
      · rw [createAndPublish_eq_pubFail svc servers pubkey now he] at h
        simp at h
      · rw [createAndPublish_eq_ok svc servers pubkey now he]

/-- Claim C5 is false as stated: a concrete successful `addServer` run has
the trace create-event, sign, publish — the signing step happens before the
publish call, not after it. -/
theorem c5_publish_first_counterexample :
    ServerListService.addServer ⟨["wss://d"], []⟩ "https://b"
        ⟨"pk", ["https://a"], 0⟩ 5 true true =
      ([.createEvent ["https://a", "https://b"], .sign, .publish ["wss://d"]],
       .ok ⟨"pk", ["https://a", "https://b"], 5⟩) := by
  rfl

/-- Claim C5, amended: in every successful add, remove, or reorder
operation, the persistence trace is create-event, then sign, then publish —
the signing step precedes the Discovery publish call. -/
theorem c5_sign_precedes_publish (svc : ServerListService)
    (u : String) (C : List String) (L : UserServerList) (now : Nat)
    (signOk pubOk : Bool) :
    (∀ r, (svc.addServer u L now signOk pubOk).2 = .ok r →
       ∃ vs, (svc.addServer u L now signOk pubOk).1 =
         [.createEvent vs, .sign, .publish svc.publishRelayUrls]) ∧
    (∀ r, (svc.removeServer u L now signOk pubOk).2 = .ok r →
       ∃ vs, (svc.removeServer u L now signOk pubOk).1 =
         [.createEvent vs, .sign, .publish svc.publishRelayUrls]) ∧
    (∀ r, (svc.reorderServers C L now signOk pubOk).2 = .ok r →
       ∃ vs, (svc.reorderServers C L now signOk pubOk).1 =
         [.createEvent vs, .sign, .publish svc.publishRelayUrls]) := by
  refine ⟨?_, ?_, ?_⟩
  · intro r h
    by_cases hv : validateServerUrl u = true
    · by_cases hm : u ∈ L.servers
      · have hrun : svc.addServer u L now signOk pubOk =
            ([], .error "Server already in list") := by
          unfold ServerListService.addServer
          rw [if_neg (by simp [hv]), if_pos hm]
        rw [hrun] at h
        simp at h
      · have hrun : svc.addServer u L now signOk pubOk =
            svc.createAndPublishServerList (L.servers ++ [u])
              L.pubkey now signOk pubOk := by
          unfold ServerListService.addServer ServerListService.updateServerList
          rw [if_neg (by simp [hv]), if_neg hm]
        rw [hrun] at h ⊢
        exact ⟨_, createAndPublish_trace_of_ok svc _ _ now signOk pubOk r h⟩
    · have hrun : svc.addServer u L now signOk pubOk =
          ([], .error "Invalid server URL") := by
        unfold ServerListService.addServer
        rw [if_pos (by simp [Bool.eq_false_iff.mpr hv])]
      rw [hrun] at h
      simp at h
  · intro r h
    exact ⟨_, createAndPublish_trace_of_ok svc _ _ now signOk pubOk r h⟩
  · intro r h
    exact ⟨_, createAndPublish_trace_of_ok svc _ _ now signOk pubOk r h⟩

/-- Witness for the amended claim C5 at a concrete input: a successful add
produces the create-event, sign, publish trace. -/
theorem c5_sign_precedes_publish_witness :
    ∃ vs, (ServerListService.addServer ⟨["wss://d"], []⟩ "https://b"
        ⟨"pk", ["https://a"], 0⟩ 5 true true).1 =
      [SLAction.createEvent vs, SLAction.sign, SLAction.publish ["wss://d"]] := by
  have h := (c5_sign_precedes_publish ⟨["wss://d"], []⟩ "https://b" []
      ⟨"pk", ["https://a"], 0⟩ 5 true true).1
    ⟨"pk", ["https://a", "https://b"], 5⟩ rfl
  simpa [ServerListService.publishRelayUrls] using h

/-- Claim C6 is false as stated: a relay whose declared metadata has no
write flag at all — so it is not flagged writable — is still included in
the derived publish target set. -/
theorem c6_unflagged_relay_counterexample :
    ((ServerListService.setPublishRelaysFromUserList ⟨["wss://d"], []⟩
        (some ⟨[("wss://r", ⟨none⟩)]⟩)).1._publishRelayUrls = ["wss://r"]) ∧
    (RelayMeta.write ⟨none⟩ ≠ some true) := by
  exact ⟨rfl, by simp⟩

/-- Claim C6, amended: the derived publish relay set consists of exactly
the relays whose declared metadata does not carry the explicit flag
write = false — relays explicitly flagged non-writable are excluded, and
relays with no write flag are treated as writable; when at least one such
relay exists the service installs them as the publish targets, otherwise it
is left unchanged. -/
theorem c6_writeRelays_amended (svc : ServerListService) (rl : UserRelayList) :
    (∀ u, u ∈ ServerListService.writeRelays rl ↔
       ∃ m, (u, m) ∈ rl.relays ∧ m.write ≠ some false) ∧
    (ServerListService.writeRelays rl ≠ [] →
       (svc.setPublishRelaysFromUserList (some rl)).1._publishRelayUrls =
           ServerListService.writeRelays rl ∧
         (svc.setPublishRelaysFromUserList (some rl)).2 = true) ∧
    (ServerListService.writeRelays rl = [] →
       svc.setPublishRelaysFromUserList (some rl) = (svc, false)) := by
  refine ⟨?_, ?_, ?_⟩
  · intro u
    constructor
    · intro hu
      rcases List.mem_map.mp hu with ⟨e, he, heq⟩
      rcases List.mem_filter.mp he with ⟨hmem, hflag⟩
      subst heq
      exact ⟨e.2, hmem, bne_iff_ne.mp hflag⟩
    · rintro ⟨m, hmem, hne⟩
      exact List.mem_map.mpr
        ⟨(u, m), List.mem_filter.mpr ⟨hmem, bne_iff_ne.mpr hne⟩, rfl⟩
  · intro hne
    have h1 : (ServerListService.writeRelays rl).isEmpty = false :=
      List.isEmpty_eq_false.mpr hne
    constructor <;>
      simp [ServerListService.setPublishRelaysFromUserList, h1]
  · intro he
    have h1 : (ServerListService.writeRelays rl).isEmpty = true :=
      List.isEmpty_eq_true.mpr he
    simp [ServerListService.setPublishRelaysFromUserList, h1]

/-- Witness for the amended claim C6 at a concrete input: the relay flagged
write = false is excluded, the flagged-writable and unflagged relays are
installed as the publish targets. -/
theorem c6_writeRelays_witness :
    (ServerListService.setPublishRelaysFromUserList ⟨["wss://d"], []⟩
        (some ⟨[("wss://a", ⟨some true⟩), ("wss://b", ⟨some false⟩),
                ("wss://c", ⟨none⟩)]⟩)).1._publishRelayUrls =
      ["wss://a", "wss://c"] := by
  have h := (c6_writeRelays_amended ⟨["wss://d"], []⟩
      ⟨[("wss://a", ⟨some true⟩), ("wss://b", ⟨some false⟩),
        ("wss://c", ⟨none⟩)]⟩).2.1 (by decide)
  rw [h.1]
  rfl

/-- Folding `newerEvent` over a list starts from the accumulator or lands
on a list member. -/
theorem foldl_newerEvent_mem (a : ServerListEvent)
    (es : List ServerListEvent) :
    es.foldl newerEvent a = a ∨ es.foldl newerEvent a ∈ es := by
  induction es generalizing a with
  | nil => exact Or.inl rfl
  | cons e es ih =>
    rw [List.foldl_cons]
    rcases ih (newerEvent a e) with h | h
    · rw [h]
      unfold newerEvent
      by_cases hlt : a.created_at < e.created_at
      · rw [if_pos hlt]
        exact Or.inr (List.mem_cons_self e es)
      · rw [if_neg hlt]
        exact Or.inl rfl
    · exact Or.inr (List.mem_cons_of_mem e h)

/-- Folding `newerEvent` yields an event at least as new as the accumulator
and as every list member. -/
theorem foldl_newerEvent_ge (a : ServerListEvent)
    (es : List ServerListEvent) :
    a.created_at ≤ (es.foldl newerEvent a).created_at ∧
      ∀ x ∈ es, x.created_at ≤ (es.foldl newerEvent a).created_at := by
  induction es generalizing a with
  | nil => exact ⟨le_refl _, by simp⟩
  | cons e es ih =>
    have hab : a.created_at ≤ (newerEvent a e).created_at := by
      unfold newerEvent
      by_cases hlt : a.created_at < e.created_at
      · rw [if_pos hlt]
        exact le_of_lt hlt
      · rw [if_neg hlt]
    have heb : e.created_at ≤ (newerEvent a e).created_at := by
      unfold newerEvent
      by_cases hlt : a.created_at < e.created_at
      · rw [if_pos hlt]
      · rw [if_neg hlt]
        exact Nat.le_of_not_lt hlt
    obtain ⟨h1, h2⟩ := ih (newerEvent a e)
    rw [List.foldl_cons]
    refine ⟨le_trans hab h1, ?_⟩
    intro x hx
    rcases List.mem_cons.mp hx with rfl | hx'
    · exact le_trans heb h1
    · exact h2 x hx'

/-- `latestEvent` returns nothing exactly on the empty list, and otherwise
a member whose timestamp is maximal. -/
theorem latestEvent_spec (es : List ServerListEvent) :
    (latestEvent es = none ↔ es = []) ∧
    ∀ e, latestEvent es = some e →
      e ∈ es ∧ ∀ x ∈ es, x.created_at ≤ e.created_at := by
  cases es with
  | nil => simp [latestEvent]
  | cons a es =>
    refine ⟨by simp [latestEvent], ?_⟩
    intro e he
    simp only [latestEvent, Option.some.injEq] at he
    subst he
    constructor
    · rcases foldl_newerEvent_mem a es with h | h
      · rw [h]
        exact List.mem_cons_self a es
      · exact List.mem_cons_of_mem a h
    · intro x hx
      obtain ⟨h1, h2⟩ := foldl_newerEvent_ge a es
      rcases List.mem_cons.mp hx with rfl | hx'
      · exact h1
      · exact h2 x hx'

/-- Claim C2: discovery queries the default relay set first; the owner
relay list is fetched, and its relays queried, only when the default query
returned no event; the returned list is the parse of a found event of
maximal timestamp; and nothing is returned exactly when both attempts
returned nothing. -/
theorem c2_getUserServerList_spec (svc : ServerListService)
    (de : List ServerListEvent) (rlo : Option UserRelayList)
    (ue : List ServerListEvent) :
    ((svc.getUserServerList de rlo ue).1.head? =
       some (.queryDefault svc._defaultRelayUrls)) ∧
    (de ≠ [] → (svc.getUserServerList de rlo ue).1 =
       [.queryDefault svc._defaultRelayUrls]) ∧
    (de = [] → rlo = none → (svc.getUserServerList de rlo ue).1 =
       [.queryDefault svc._defaultRelayUrls, .fetchUserRelayList]) ∧
    (∀ rl, de = [] → rlo = some rl → (svc.getUserServerList de rlo ue).1 =
       [.queryDefault svc._defaultRelayUrls, .fetchUserRelayList,
        .queryUserRelays (rl.relays.map Prod.fst)]) ∧
    ((svc.getUserServerList de rlo ue).2 = none ↔
       discoveredEvents de rlo ue = []) ∧
    (∀ l, (svc.getUserServerList de rlo ue).2 = some l →
       ∃ ev ∈ discoveredEvents de rlo ue, l = parseServerListEvent ev ∧
         ∀ x ∈ discoveredEvents de rlo ue, x.created_at ≤ ev.created_at) := by
  refine ⟨?_, ?_, ?_, ?_, ?_, ?_⟩
  · cases hde : de.isEmpty
    · simp [ServerListService.getUserServerList, ServerListService.discoverySteps, hde]
    · cases rlo <;>
        simp [ServerListService.getUserServerList, ServerListService.discoverySteps, hde]
  · intro hde
    have h1 : de.isEmpty = false := List.isEmpty_eq_false.mpr hde
    simp [ServerListService.getUserServerList, ServerListService.discoverySteps, h1]
  · intro hde hrlo
    subst hde; subst hrlo
    simp [ServerListService.getUserServerList, ServerListService.discoverySteps]
  · intro rl hde hrlo
    subst hde; subst hrlo
    simp [ServerListService.getUserServerList, ServerListService.discoverySteps]
  · cases hl : latestEvent (discoveredEvents de rlo ue) with
    | none =>
      simp only [ServerListService.getUserServerList, hl]
      simpa using (latestEvent_spec (discoveredEvents de rlo ue)).1.mp hl
    | some ev =>
      simp only [ServerListService.getUserServerList, hl]
      constructor
      · intro h
        exact absurd h (by simp)
      · intro h
        have := ((latestEvent_spec (discoveredEvents de rlo ue)).2 ev hl).1
        rw [h] at this
        simp at this
  · intro l hl'
    cases hl : latestEvent (discoveredEvents de rlo ue) with
    | none =>
      rw [ServerListService.getUserServerList] at hl'
      simp [hl] at hl'
    | some ev =>
      rw [ServerListService.getUserServerList] at hl'
      simp only [hl, Option.some.injEq] at hl'
      obtain ⟨hmem, hmax⟩ := (latestEvent_spec (discoveredEvents de rlo ue)).2 ev hl
      exact ⟨ev, hmem, hl'.symm, hmax⟩

/-- Witness for claim C2 at a concrete input: with two events found on the
default relays, the list parsed from the newer one (timestamp 9) is
returned. -/
theorem c2_getUserServerList_witness :
    ∃ ev ∈ discoveredEvents
        [⟨"pk", 5, ["https://a"]⟩, ⟨"pk", 9, ["https://b"]⟩] none [],
      (⟨"pk", ["https://b"], 9⟩ : UserServerList) = parseServerListEvent ev ∧
        ∀ x ∈ discoveredEvents
            [⟨"pk", 5, ["https://a"]⟩, ⟨"pk", 9, ["https://b"]⟩] none [],
          x.created_at ≤ ev.created_at :=
  (c2_getUserServerList_spec ⟨["wss://d"], []⟩
      [⟨"pk", 5, ["https://a"]⟩, ⟨"pk", 9, ["https://b"]⟩] none []).2.2.2.2.2
    ⟨"pk", ["https://b"], 9⟩ rfl

/-- Claim C7: with a signing method available, a valid file, and the EXIF
step not aborting, an upload against an absent or empty server list fails
with the no-servers-configured error and makes no network call. -/
theorem c7_upload_no_servers (sm : SigningMethod) (isImg : Bool)
    (ex : ExifOutcome) (lo : Option UserServerList)
    (upl : Except String String)
    (hns : lo = none ∨ ∃ L, lo = some L ∧ L.servers = [])
    (hexif : isImg = false ∨ ex = ExifOutcome.ok) :
    uploadToPrimaryServer (some sm) true isImg ex lo upl =
      ([], .error "No Blossom servers configured. Please configure your servers in Settings first.") := by
  rcases hexif with rfl | rfl
  · rcases hns with rfl | ⟨L, rfl, hL⟩
    · rfl
    · obtain ⟨pk, srv, upd⟩ := L
      have hsrv : srv = [] := hL
      subst hsrv
      rfl
  · rcases hns with rfl | ⟨L, rfl, hL⟩
    · cases isImg <;> rfl
    · obtain ⟨pk, srv, upd⟩ := L
      have hsrv : srv = [] := hL
      subst hsrv
      cases isImg <;> rfl

/-- Witness for claim C7 at a concrete input: an upload of a valid
non-image file against an empty server list fails with the
no-servers-configured error and an empty network trace. -/
theorem c7_upload_no_servers_witness :
    uploadToPrimaryServer (some SigningMethod.extension) true false
        ExifOutcome.ok (some ⟨"pk", [], 0⟩) (.ok "https://a/x") =
      ([], .error "No Blossom servers configured. Please configure your servers in Settings first.") :=
  c7_upload_no_servers SigningMethod.extension false ExifOutcome.ok
    (some ⟨"pk", [], 0⟩) (.ok "https://a/x")
    (Or.inr ⟨⟨"pk", [], 0⟩, rfl, rfl⟩) (Or.inl rfl)

/-- Claim C8: a confirmed UI delete of a cached hash removes it from the
cache first, then dispatches the remote delete; when the remote delete
fails the handler forces a cache refresh; and the cache removal really
removes the hash and never inserts anything of its own. -/
theorem c8_delete_optimistic (sm : SigningMethod) (media : List String)
    (h : String) (L : UserServerList) (remoteOk : Bool)
    (hmem : h ∈ media) (hne : L.servers ≠ []) :
    (deleteMedia true (some sm) media h (some L) remoteOk =
       if remoteOk then [.removeFromCache h, .remoteDelete h]
       else [.removeFromCache h, .remoteDelete h, .forceRefresh]) ∧
    h ∉ removeMedia media h ∧
    (∀ x ∈ removeMedia media h, x ∈ media) := by
  refine ⟨?_, ?_, fun x hx => List.mem_of_mem_filter hx⟩
  · cases hsrv : L.servers with
    | nil => exact absurd hsrv hne
    | cons p rest =>
      cases remoteOk <;>
        simp [deleteMedia, hmem, hsrv]
  · simp [removeMedia, List.mem_filter]

/-- Witness for claim C8 at a concrete input: a failing remote delete of
`h1` yields the optimistic removal, the remote dispatch, and the forced
refresh, and `h1` is gone from the cached set. -/
theorem c8_delete_optimistic_witness :
    deleteMedia true (some SigningMethod.extension) ["h1", "h2"] "h1"
        (some ⟨"pk", ["https://a"], 0⟩) false =
      [.removeFromCache "h1", .remoteDelete "h1", .forceRefresh] ∧
    "h1" ∉ removeMedia ["h1", "h2"] "h1" := by
  have h := c8_delete_optimistic SigningMethod.extension ["h1", "h2"] "h1"
      ⟨"pk", ["https://a"], 0⟩ false (by decide) (by decide)
  exact ⟨by simpa using h.1, h.2.1⟩

end Sakura
